import Mathlib

/-!
# Tool handlers of `tools/tools.go`

A shallow embedding of the four tool handlers (`ListDynamoDbTables`,
`GetDynamoDbTableMetadata`, `ListKmsKeysWithMetadata`, `ListS3BucketsWithMetadata`)
and the properties of their results.

Conventions of the embedding.

* Loading the configuration and building the client from it is the argument of a handler:
  an error message, or the client.
* A provider client is the response it gives to each request: the list call is a value,
  a per-resource call is a function of the resource identifier.  A Go `error` is
  represented by its message.
* A Go pointer that the handlers dereference or test against `nil` is an `Option`;
  dereferencing `none` is a panic of the handler (`Outcome.panic`).
* A Go slice that is handed to `json.Marshal` or ranged over is an `Option (List _)`:
  `none` is the nil slice, `some []` the empty one.
* A member that a handler passes to `json.Marshal` without looking at it is carried as the
  JSON value `encoding/json` renders for it (`Json.null` for a nil pointer or nil slice).
* The result of a handler is the JSON document whose text it puts in the tool result;
  rendering the document as text is not modelled, and members of an object are kept in
  insertion order (Go emits them sorted by key).  `json.Marshal` is taken to succeed on the
  values marshalled here (strings, numbers, booleans, timestamps, slices, string-keyed
  maps), so the error return after it is not modelled.

A handler returns a result only when the members it dereferences are present; statements
say so where they need it, and some are made of every result a handler returns.
-/

namespace Tools

/-- JSON documents. -/
inductive Json where
  | null
  | bool (b : Bool)
  | num (n : Int)
  | str (s : String)
  | arr (items : List Json)
  | obj (members : List (String × Json))

/-- The Go assignment `m[k] = v` on a map kept as an association list with distinct keys. -/
def mapSet {α : Type} : List (String × α) → String → α → List (String × α)
  | [], k, v => [(k, v)]
  | (k', v') :: rest, k, v =>
    if k' = k then (k, v) :: rest else (k', v') :: mapSet rest k v

/-- The Go lookup `m[k]`, `none` when the key is absent. -/
def mapGet {α : Type} : List (String × α) → String → Option α
  | [], _ => none
  | (k', v') :: rest, k => if k' = k then some v' else mapGet rest k

/-- The keys of a map. -/
def mapKeys {α : Type} (m : List (String × α)) : List String := m.map Prod.fst

/-- The elements a `for ... range` visits: none for the nil slice. -/
def rangeOf {α : Type} : Option (List α) → List α
  | none => []
  | some xs => xs

/-- What `json.Marshal` gives for a `[]string`: `null` for the nil slice. -/
def marshalStrings : Option (List String) → Json
  | none => Json.null
  | some xs => Json.arr (xs.map Json.str)

/-- What `json.Marshal` gives for a non-nil `map[string]string`. -/
def marshalStringMap (m : List (String × String)) : Json :=
  Json.obj (m.map fun kv => (kv.1, Json.str kv.2))

/-- What a handler does: it returns the pair `(*mcp.CallToolResult, error)`, where the
result is given by the JSON document of its text, or it panics. -/
inductive Outcome where
  | ret (result : Option Json) (err : Option String)
  | panic

/-! ## DynamoDB -/

/-- The `dynamodb.ListTablesOutput` members the handlers read. -/
structure ListTablesOutput where
  TableNames : Option (List String)

/-- The `types.TableDescription` members the handlers read. -/
structure TableDescription where
  CreationDateTime : Json
  TableSizeBytes : Json
  BillingModeSummary : Json

/-- The `dynamodb.DescribeTableOutput` members the handlers read. -/
structure DescribeTableOutput where
  Table : Option TableDescription

/-- The DynamoDB client. -/
structure DynamoClient where
  ListTables : Except String ListTablesOutput
  DescribeTable : String → Except String DescribeTableOutput

/-- Handler of `list-dynamodb-tables`. -/
def ListDynamoDbTables (loadConfig : Except String DynamoClient) : Outcome :=
  match loadConfig with
  | .error err => .ret none (some ("failed to load AWS configuration: " ++ err))
  | .ok dynamoClient =>
    match dynamoClient.ListTables with
    | .error err => .ret none (some ("failed to list DynamoDB tables: " ++ err))
    | .ok output => .ret (some (marshalStrings output.TableNames)) none

/-- The loop of `GetDynamoDbTableMetadata` over the table names still to visit, with the
`metadata` map built so far, followed by the marshalling of the map. -/
def describeTables (dynamoClient : DynamoClient) :
    List String → List (String × Json) → Outcome
  | [], metadata => .ret (some (Json.obj metadata)) none
  | tableName :: rest, metadata =>
    match dynamoClient.DescribeTable tableName with
    | .error err =>
      .ret none (some ("failed to describe table " ++ tableName ++ ": " ++ err))
    | .ok descOutput =>
      match descOutput.Table with
      | none => .panic
      | some table =>
        describeTables dynamoClient rest
          (mapSet metadata tableName
            (Json.obj [("CreatedDate", table.CreationDateTime),
                       ("SizeBytes", table.TableSizeBytes),
                       ("PricingModel", table.BillingModeSummary)]))

/-- Handler of `get-dynamodb-table-metadata`. -/
def GetDynamoDbTableMetadata (loadConfig : Except String DynamoClient) : Outcome :=
  match loadConfig with
  | .error err => .ret none (some ("failed to load AWS configuration: " ++ err))
  | .ok dynamoClient =>
    match dynamoClient.ListTables with
    | .error err => .ret none (some ("failed to list DynamoDB tables: " ++ err))
    | .ok output => describeTables dynamoClient (rangeOf output.TableNames) []

/-! ## KMS -/

/-- The `types.KeyListEntry` members the handler reads. -/
structure KeyListEntry where
  KeyId : Option String

/-- The `kms.ListKeysOutput` members the handler reads. -/
structure ListKeysOutput where
  Keys : Option (List KeyListEntry)

/-- The `types.KeyMetadata` members the handler reads. -/
structure KeyMetadata where
  Arn : Option String
  CreationDate : Json
  Description : Json
  Enabled : Json
  KeyState : Json
  KeyManager : Json
  KeyUsage : Json

/-- The `kms.DescribeKeyOutput` members the handler reads. -/
structure DescribeKeyOutput where
  KeyMetadata : Option KeyMetadata

/-- The KMS client. -/
structure KmsClient where
  ListKeys : Except String ListKeysOutput
  DescribeKey : String → Except String DescribeKeyOutput

/-- The loop of `ListKmsKeysWithMetadata` over the keys still to visit, with the
`keysMetadata` slice built so far, followed by the marshalling of the slice. -/
def describeKeys (kmsClient : KmsClient) : List KeyListEntry → List Json → Outcome
  | [], keysMetadata => .ret (some (Json.arr keysMetadata)) none
  | keyInfo :: rest, keysMetadata =>
    match keyInfo.KeyId with
    | none => .panic
    | some keyId =>
      match kmsClient.DescribeKey keyId with
      | .error err =>
        .ret none (some ("failed to describe key " ++ keyId ++ ": " ++ err))
      | .ok descOutput =>
        match descOutput.KeyMetadata with
        | none => .panic
        | some md =>
          match md.Arn with
          | none => .panic
          | some arn =>
            describeKeys kmsClient rest
              (keysMetadata ++
                [Json.obj [("KeyId", Json.str keyId),
                           ("Arn", Json.str arn),
                           ("CreationDate", md.CreationDate),
                           ("Description", md.Description),
                           ("Enabled", md.Enabled),
                           ("KeyState", md.KeyState),
                           ("KeyManager", md.KeyManager),
                           ("KeyUsage", md.KeyUsage)]])

/-- Handler of `list-kms-keys`. -/
def ListKmsKeysWithMetadata (loadConfig : Except String KmsClient) : Outcome :=
  match loadConfig with
  | .error err => .ret none (some ("failed to load AWS configuration: " ++ err))
  | .ok kmsClient =>
    match kmsClient.ListKeys with
    | .error err => .ret none (some ("failed to list KMS keys: " ++ err))
    | .ok output => describeKeys kmsClient (rangeOf output.Keys) []

/-! ## S3 -/

/-- The `types.Bucket` members the handler reads. -/
structure Bucket where
  Name : Option String
  CreationDate : Json

/-- The `s3.ListBucketsOutput` members the handler reads. -/
structure ListBucketsOutput where
  Buckets : Option (List Bucket)

/-- The `s3.GetBucketLocationOutput` members the handler reads. -/
structure GetBucketLocationOutput where
  LocationConstraint : Json

/-- The `s3.GetBucketVersioningOutput` members the handler reads. -/
structure GetBucketVersioningOutput where
  Status : Json

/-- The `types.ServerSideEncryptionConfiguration` members the handler reads. -/
structure ServerSideEncryptionConfiguration where
  Rules : Json

/-- The `s3.GetBucketEncryptionOutput` members the handler reads. -/
structure GetBucketEncryptionOutput where
  ServerSideEncryptionConfiguration : Option ServerSideEncryptionConfiguration

/-- The `types.PublicAccessBlockConfiguration` members the handler reads. -/
structure PublicAccessBlockConfiguration where
  BlockPublicAcls : Json
  BlockPublicPolicy : Json
  IgnorePublicAcls : Json
  RestrictPublicBuckets : Json

/-- The `s3.GetPublicAccessBlockOutput` members the handler reads. -/
structure GetPublicAccessBlockOutput where
  PublicAccessBlockConfiguration : Option PublicAccessBlockConfiguration

/-- The `types.Tag` members the handler reads. -/
structure Tag where
  Key : Option String
  Value : Option String

/-- The `s3.GetBucketTaggingOutput` members the handler reads; the tag set is ranged over,
so a nil slice and an empty one are the same here. -/
structure GetBucketTaggingOutput where
  TagSet : List Tag

/-- The S3 client. -/
structure S3Client where
  ListBuckets : Except String ListBucketsOutput
  GetBucketLocation : String → Except String GetBucketLocationOutput
  GetBucketVersioning : String → Except String GetBucketVersioningOutput
  GetBucketEncryption : String → Except String GetBucketEncryptionOutput
  GetPublicAccessBlock : String → Except String GetPublicAccessBlockOutput
  GetBucketTagging : String → Except String GetBucketTaggingOutput

/-- The loop `for _, tag := range taggingOutput.TagSet { tags[*tag.Key] = *tag.Value }`
from the `tags` map built so far; `none` when a dereference panics. -/
def collectTags : List Tag → List (String × String) → Option (List (String × String))
  | [], tags => some tags
  | tag :: rest, tags =>
    match tag.Key with
    | none => none
    | some key =>
      match tag.Value with
      | none => none
      | some value => collectTags rest (mapSet tags key value)

/-- The body of the loop of `ListS3BucketsWithMetadata`: the `metadata` map of one bucket,
`none` when a dereference panics. -/
def bucketMetadata (s3Client : S3Client) (bucket : Bucket) : Option (List (String × Json)) :=
  match bucket.Name with
  | none => none
  | some bucketName =>
    let metadata : List (String × Json) :=
      [("Name", Json.str bucketName), ("CreationDate", bucket.CreationDate)]
    let metadata :=
      match s3Client.GetBucketLocation bucketName with
      | .ok locationOutput => mapSet metadata "Region" locationOutput.LocationConstraint
      | .error _ => metadata
    let metadata :=
      match s3Client.GetBucketVersioning bucketName with
      | .ok versioningOutput => mapSet metadata "Versioning" versioningOutput.Status
      | .error _ => metadata
    let metadata :=
      match s3Client.GetBucketEncryption bucketName with
      | .ok encryptionOutput =>
        match encryptionOutput.ServerSideEncryptionConfiguration with
        | some cfg => mapSet metadata "Encryption" cfg.Rules
        | none => metadata
      | .error _ => metadata
    let metadata :=
      match s3Client.GetPublicAccessBlock bucketName with
      | .ok publicAccessOutput =>
        match publicAccessOutput.PublicAccessBlockConfiguration with
        | some cfg =>
          mapSet metadata "PublicAccessBlock"
            (Json.obj [("BlockPublicAcls", cfg.BlockPublicAcls),
                       ("BlockPublicPolicy", cfg.BlockPublicPolicy),
                       ("IgnorePublicAcls", cfg.IgnorePublicAcls),
                       ("RestrictPublicBuckets", cfg.RestrictPublicBuckets)])
        | none => metadata
      | .error _ => metadata
    match s3Client.GetBucketTagging bucketName with
    | .ok taggingOutput =>
      match collectTags taggingOutput.TagSet [] with
      | none => none
      | some tags => some (mapSet metadata "Tags" (marshalStringMap tags))
    | .error _ => some metadata

/-- The loop of `ListS3BucketsWithMetadata` over the buckets still to visit, with the
`bucketsMetadata` slice built so far, followed by the marshalling of the slice. -/
def describeBuckets (s3Client : S3Client) : List Bucket → List Json → Outcome
  | [], bucketsMetadata => .ret (some (Json.arr bucketsMetadata)) none
  | bucket :: rest, bucketsMetadata =>
    match bucketMetadata s3Client bucket with
    | none => .panic
    | some metadata =>
      describeBuckets s3Client rest (bucketsMetadata ++ [Json.obj metadata])

/-- Handler of `list-s3-buckets`. -/
def ListS3BucketsWithMetadata (loadConfig : Except String S3Client) : Outcome :=
  match loadConfig with
  | .error err => .ret none (some ("failed to load AWS configuration: " ++ err))
  | .ok s3Client =>
    match s3Client.ListBuckets with
    | .error err => .ret none (some ("failed to list S3 buckets: " ++ err))
    | .ok listOutput => describeBuckets s3Client (rangeOf listOutput.Buckets) []

/-! ## Sample clients -/

/-- A DynamoDB client whose listing holds no slice of names. -/
def dynamoNil : DynamoClient :=
  { ListTables := .ok { TableNames := none }
    DescribeTable := fun _ => .error "unused" }

/-- A DynamoDB client listing the table `t`, whose description is refused. -/
def dynamoDenied : DynamoClient :=
  { ListTables := .ok { TableNames := some ["t"] }
    DescribeTable := fun _ => .error "denied" }

/-- A KMS client listing the key `k`, whose description is refused. -/
def kmsDenied : KmsClient :=
  { ListKeys := .ok { Keys := some [{ KeyId := some "k" }] }
    DescribeKey := fun _ => .error "denied" }

/-- A DynamoDB client whose listing fails. -/
def dynamoDown : DynamoClient :=
  { ListTables := .error "down"
    DescribeTable := fun _ => .ok { Table := none } }

/-- A KMS client whose listing fails. -/
def kmsDown : KmsClient :=
  { ListKeys := .error "down"
    DescribeKey := fun _ => .ok { KeyMetadata := none } }

/-- An S3 client whose listing fails. -/
def s3Down : S3Client :=
  { ListBuckets := .error "down"
    GetBucketLocation := fun _ => .ok { LocationConstraint := Json.str "" }
    GetBucketVersioning := fun _ => .error "down"
    GetBucketEncryption := fun _ => .ok { ServerSideEncryptionConfiguration := none }
    GetPublicAccessBlock := fun _ => .error "down"
    GetBucketTagging := fun _ => .ok { TagSet := [] } }

/-- A listing of the two buckets `a` and `b`. -/
def sampleBuckets : Option (List Bucket) :=
  some [{ Name := some "a", CreationDate := Json.str "2024-01-01T00:00:00Z" },
        { Name := some "b", CreationDate := Json.str "2024-02-01T00:00:00Z" }]

/-- A DynamoDB client listing `orders`, `users` and `orders` again, each described. -/
def dynamoSample : DynamoClient :=
  { ListTables := .ok { TableNames := some ["orders", "users", "orders"] }
    DescribeTable := fun _ =>
      .ok { Table := some { CreationDateTime := Json.str "2023-05-01T00:00:00Z"
                            TableSizeBytes := Json.num 1024
                            BillingModeSummary := Json.null } } }

/-- The metadata of the keys of `kmsSample`. -/
def sampleKeyMetadata : KeyMetadata :=
  { Arn := some "arn:aws:kms:us-east-1:111122223333:key/k"
    CreationDate := Json.str "2023-05-01T00:00:00Z"
    Description := Json.str ""
    Enabled := Json.bool true
    KeyState := Json.str "Enabled"
    KeyManager := Json.str "CUSTOMER"
    KeyUsage := Json.str "ENCRYPT_DECRYPT" }

/-- A KMS client listing the keys `k1` and `k2`, each described. -/
def kmsSample : KmsClient :=
  { ListKeys := .ok { Keys := some [{ KeyId := some "k1" }, { KeyId := some "k2" }] }
    DescribeKey := fun _ => .ok { KeyMetadata := some sampleKeyMetadata } }

/-- An S3 client listing the buckets `a` and `b`: every call succeeds, with a configuration
inside where there is one, except the tagging call of `b`. -/
def s3Sample : S3Client :=
  { ListBuckets := .ok { Buckets := sampleBuckets }
    GetBucketLocation := fun _ => .ok { LocationConstraint := Json.str "eu-west-1" }
    GetBucketVersioning := fun _ => .ok { Status := Json.str "Enabled" }
    GetBucketEncryption := fun _ =>
      .ok { ServerSideEncryptionConfiguration := some { Rules := Json.arr [] } }
    GetPublicAccessBlock := fun _ =>
      .ok { PublicAccessBlockConfiguration := some {
        BlockPublicAcls := Json.bool true
        BlockPublicPolicy := Json.bool true
        IgnorePublicAcls := Json.bool true
        RestrictPublicBuckets := Json.bool true } }
    GetBucketTagging := fun name =>
      if name = "b" then .error "NoSuchTagSet"
      else .ok { TagSet := [{ Key := some "env", Value := some "dev" },
                            { Key := some "team", Value := some "x" },
                            { Key := some "env", Value := some "prod" }] } }

/-- An S3 client listing the buckets `a` and `b`: every call succeeds except the tagging
call of `b`, and the encryption and public-access-block responses hold no configuration. -/
def s3NilConfig : S3Client :=
  { ListBuckets := .ok { Buckets := sampleBuckets }
    GetBucketLocation := fun _ => .ok { LocationConstraint := Json.str "eu-west-1" }
    GetBucketVersioning := fun _ => .ok { Status := Json.str "Enabled" }
    GetBucketEncryption := fun _ => .ok { ServerSideEncryptionConfiguration := none }
    GetPublicAccessBlock := fun _ => .ok { PublicAccessBlockConfiguration := none }
    GetBucketTagging := fun name =>
      if name = "b" then .error "NoSuchTagSet" else .ok { TagSet := [] } }

/-- The record `ListS3BucketsWithMetadata` gives for the bucket `a` of `s3NilConfig`. -/
def nilConfigRecordA : List (String × Json) :=
  [("Name", Json.str "a"), ("CreationDate", Json.str "2024-01-01T00:00:00Z"),
   ("Region", Json.str "eu-west-1"), ("Versioning", Json.str "Enabled"),
   ("Tags", Json.obj [])]

/-- The record `ListS3BucketsWithMetadata` gives for the bucket `b` of `s3NilConfig`. -/
def nilConfigRecordB : List (String × Json) :=
  [("Name", Json.str "b"), ("CreationDate", Json.str "2024-02-01T00:00:00Z"),
   ("Region", Json.str "eu-west-1"), ("Versioning", Json.str "Enabled")]

/-- An S3 client listing the bucket `a`: every call succeeds, and the tagging response
holds a tag without a key. -/
def s3NilTagKey : S3Client :=
  { ListBuckets := .ok { Buckets := some [
      { Name := some "a", CreationDate := Json.str "2024-01-01T00:00:00Z" }] }
    GetBucketLocation := fun _ => .ok { LocationConstraint := Json.str "eu-west-1" }
    GetBucketVersioning := fun _ => .ok { Status := Json.str "Enabled" }
    GetBucketEncryption := fun _ =>
      .ok { ServerSideEncryptionConfiguration := some { Rules := Json.arr [] } }
    GetPublicAccessBlock := fun _ => .ok { PublicAccessBlockConfiguration := none }
    GetBucketTagging := fun _ => .ok { TagSet := [{ Key := none, Value := some "v" }] } }

/-- The document `ListS3BucketsWithMetadata` gives at `s3Sample`. -/
def s3SampleDocument : Json :=
  Json.arr
    [Json.obj [("Name", Json.str "a"), ("CreationDate", Json.str "2024-01-01T00:00:00Z"),
               ("Region", Json.str "eu-west-1"), ("Versioning", Json.str "Enabled"),
               ("Encryption", Json.arr []),
               ("PublicAccessBlock",
                 Json.obj [("BlockPublicAcls", Json.bool true),
                           ("BlockPublicPolicy", Json.bool true),
                           ("IgnorePublicAcls", Json.bool true),
                           ("RestrictPublicBuckets", Json.bool true)]),
               ("Tags", Json.obj [("env", Json.str "prod"), ("team", Json.str "x")])],
     Json.obj [("Name", Json.str "b"), ("CreationDate", Json.str "2024-02-01T00:00:00Z"),
               ("Region", Json.str "eu-west-1"), ("Versioning", Json.str "Enabled"),
               ("Encryption", Json.arr []),
               ("PublicAccessBlock",
                 Json.obj [("BlockPublicAcls", Json.bool true),
                           ("BlockPublicPolicy", Json.bool true),
                           ("IgnorePublicAcls", Json.bool true),
                           ("RestrictPublicBuckets", Json.bool true)])]]

/-- The document `GetDynamoDbTableMetadata` gives at `dynamoSample`. -/
def dynamoSampleDocument : Json :=
  Json.obj
    [("orders", Json.obj [("CreatedDate", Json.str "2023-05-01T00:00:00Z"),
                          ("SizeBytes", Json.num 1024),
                          ("PricingModel", Json.null)]),
     ("users", Json.obj [("CreatedDate", Json.str "2023-05-01T00:00:00Z"),
                         ("SizeBytes", Json.num 1024),
                         ("PricingModel", Json.null)])]

/-- A DynamoDB client listing `orders`, `t` and `users`: the description of `t` is refused,
the description of `users` holds no table. -/
def dynamoSecondDenied : DynamoClient :=
  { ListTables := .ok { TableNames := some ["orders", "t", "users"] }
    DescribeTable := fun name =>
      if name = "t" then .error "denied"
      else if name = "users" then .ok { Table := none }
      else .ok { Table := some { CreationDateTime := Json.str "2023-05-01T00:00:00Z"
                                 TableSizeBytes := Json.num 1024
                                 BillingModeSummary := Json.null } } }

/-- A KMS client listing the keys `k1`, `k2` and a key without an id: the description of
`k2` is refused. -/
def kmsSecondDenied : KmsClient :=
  { ListKeys := .ok { Keys := some [{ KeyId := some "k1" }, { KeyId := some "k2" },
                                    { KeyId := none }] }
    DescribeKey := fun id =>
      if id = "k2" then .error "denied" else .ok { KeyMetadata := some sampleKeyMetadata } }

/-- A DynamoDB client listing the table `t`, whose description succeeds and holds no table
description. -/
def dynamoNoTable : DynamoClient :=
  { ListTables := .ok { TableNames := some ["t"] }
    DescribeTable := fun _ => .ok { Table := none } }

/-- An S3 client listing one bucket, which has no name. -/
def s3NamelessBucket : S3Client :=
  { ListBuckets := .ok { Buckets := some [
      { Name := none, CreationDate := Json.str "2024-01-01T00:00:00Z" }] }
    GetBucketLocation := fun _ => .ok { LocationConstraint := Json.str "eu-west-1" }
    GetBucketVersioning := fun _ => .ok { Status := Json.str "Enabled" }
    GetBucketEncryption := fun _ => .error "absent"
    GetPublicAccessBlock := fun _ => .error "absent"
    GetBucketTagging := fun _ => .ok { TagSet := [] } }

/-- An S3 client listing the bucket `a`, whose tagging response holds a tag without a
value; the encryption and public-access-block calls fail. -/
def s3NilTagValue : S3Client :=
  { ListBuckets := .ok { Buckets := some [
      { Name := some "a", CreationDate := Json.str "2024-01-01T00:00:00Z" }] }
    GetBucketLocation := fun _ => .ok { LocationConstraint := Json.str "eu-west-1" }
    GetBucketVersioning := fun _ => .ok { Status := Json.str "Enabled" }
    GetBucketEncryption := fun _ => .error "absent"
    GetPublicAccessBlock := fun _ => .error "absent"
    GetBucketTagging := fun _ => .ok { TagSet := [{ Key := some "env", Value := none }] } }

/-- An S3 client listing the buckets `a` and `b`: every call succeeds, with a configuration
inside where there is one, except the tagging call of `b`; the tagging response of `a` holds
a tag without a key. -/
def s3KeylessTag : S3Client :=
  { ListBuckets := .ok { Buckets := sampleBuckets }
    GetBucketLocation := fun _ => .ok { LocationConstraint := Json.str "eu-west-1" }
    GetBucketVersioning := fun _ => .ok { Status := Json.str "Enabled" }
    GetBucketEncryption := fun _ =>
      .ok { ServerSideEncryptionConfiguration := some { Rules := Json.arr [] } }
    GetPublicAccessBlock := fun _ =>
      .ok { PublicAccessBlockConfiguration := some {
        BlockPublicAcls := Json.bool true
        BlockPublicPolicy := Json.bool true
        IgnorePublicAcls := Json.bool true
        RestrictPublicBuckets := Json.bool true } }
    GetBucketTagging := fun name =>
      if name = "b" then .error "NoSuchTagSet"
      else .ok { TagSet := [{ Key := none, Value := some "v" }] } }

/-! ## Maps -/

theorem mapGet_mapSet_self {α : Type} (m : List (String × α)) (k : String) (v : α) :
    mapGet (mapSet m k v) k = some v := by
  induction m with
  | nil => simp [mapSet, mapGet]
  | cons p rest ih =>
    obtain ⟨k', v'⟩ := p
    by_cases h : k' = k
    · simp [mapSet, mapGet, h]
    · simp [mapSet, mapGet, h, ih]

theorem mapGet_mapSet_ne {α : Type} (m : List (String × α)) (k k' : String) (v : α)
    (h : k ≠ k') : mapGet (mapSet m k v) k' = mapGet m k' := by
  induction m with
  | nil => simp [mapSet, mapGet, h]
  | cons p rest ih =>
    obtain ⟨k₀, v₀⟩ := p
    by_cases h₀ : k₀ = k
    · subst h₀
      simp [mapSet, mapGet, h]
    · simp [mapSet, mapGet, h₀, ih]

theorem mem_mapKeys_mapSet {α : Type} (m : List (String × α)) (k x : String) (v : α) :
    x ∈ mapKeys (mapSet m k v) ↔ x = k ∨ x ∈ mapKeys m := by
  induction m with
  | nil => simp [mapSet, mapKeys]
  | cons p rest ih =>
    obtain ⟨k₀, v₀⟩ := p
    by_cases h₀ : k₀ = k
    · subst h₀
      simp [mapSet, mapKeys]
    · have ih' : x ∈ List.map Prod.fst (mapSet rest k v) ↔
          x = k ∨ x ∈ List.map Prod.fst rest := ih
      simp only [mapSet, mapKeys, h₀, if_false, List.map_cons, List.mem_cons, ih']
      tauto

theorem nodup_mapKeys_mapSet {α : Type} (m : List (String × α)) (k : String) (v : α)
    (h : (mapKeys m).Nodup) : (mapKeys (mapSet m k v)).Nodup := by
  induction m with
  | nil => simp [mapSet, mapKeys]
  | cons p rest ih =>
    obtain ⟨k₀, v₀⟩ := p
    have hk : k₀ ∉ mapKeys rest := (List.nodup_cons.mp h).1
    have hr : (mapKeys rest).Nodup := (List.nodup_cons.mp h).2
    by_cases h₀ : k₀ = k
    · subst h₀
      simpa [mapSet, mapKeys] using h
    · have hmem : k₀ ∉ mapKeys (mapSet rest k v) := by
        rw [mem_mapKeys_mapSet]
        exact fun hc => hc.elim h₀ hk
      have : (k₀ :: mapKeys (mapSet rest k v)).Nodup := List.nodup_cons.mpr ⟨hmem, ih hr⟩
      simpa [mapSet, mapKeys, h₀] using this

theorem mapGet_isSome_iff {α : Type} (m : List (String × α)) (k : String) :
    (mapGet m k).isSome ↔ k ∈ mapKeys m := by
  induction m with
  | nil => simp [mapGet, mapKeys]
  | cons p rest ih =>
    obtain ⟨k₀, v₀⟩ := p
    have ih' : (mapGet rest k).isSome = true ↔ k ∈ List.map Prod.fst rest := ih
    by_cases h₀ : k₀ = k
    · simp [mapGet, mapKeys, h₀]
    · have h₁ : ¬ k = k₀ := fun h => h₀ h.symm
      simp [mapGet, mapKeys, h₀, h₁, ih']

/-! ## A failing list step -/

/-- C4: in each of the three aggregating handlers, a list step that returns an error makes
the handler return a nil result together with an error, whatever the describe calls of the
client would answer. -/
theorem list_failure_returns_error_and_no_result :
    (∀ (c : DynamoClient) (e : String), c.ListTables = .error e →
      GetDynamoDbTableMetadata (.ok c) =
        .ret none (some ("failed to list DynamoDB tables: " ++ e))) ∧
    (∀ (c : KmsClient) (e : String), c.ListKeys = .error e →
      ListKmsKeysWithMetadata (.ok c) =
        .ret none (some ("failed to list KMS keys: " ++ e))) ∧
    (∀ (c : S3Client) (e : String), c.ListBuckets = .error e →
      ListS3BucketsWithMetadata (.ok c) =
        .ret none (some ("failed to list S3 buckets: " ++ e))) := by
  refine ⟨?_, ?_, ?_⟩
  · intro c e h
    simp [GetDynamoDbTableMetadata, h]
  · intro c e h
    simp [ListKmsKeysWithMetadata, h]
  · intro c e h
    simp [ListS3BucketsWithMetadata, h]

theorem list_failure_returns_error_and_no_result_witness :
    GetDynamoDbTableMetadata (.ok dynamoDown) =
        .ret none (some ("failed to list DynamoDB tables: " ++ "down")) ∧
    ListKmsKeysWithMetadata (.ok kmsDown) =
        .ret none (some ("failed to list KMS keys: " ++ "down")) ∧
    ListS3BucketsWithMetadata (.ok s3Down) =
        .ret none (some ("failed to list S3 buckets: " ++ "down")) :=
  ⟨list_failure_returns_error_and_no_result.1 dynamoDown "down" rfl,
   list_failure_returns_error_and_no_result.2.1 kmsDown "down" rfl,
   list_failure_returns_error_and_no_result.2.2 s3Down "down" rfl⟩

/-! ## An empty listing -/

/-- Supporting fact for C6: with a list step that succeeds with no resources, whether the
slice is nil or empty, the three handlers that build their own collection give the empty
collection; `ListDynamoDbTables` gives the empty array for the empty slice. -/
theorem empty_listing_gives_empty_collection :
    (∀ (c : DynamoClient) (names : Option (List String)),
      c.ListTables = .ok { TableNames := names } → rangeOf names = [] →
      GetDynamoDbTableMetadata (.ok c) = .ret (some (Json.obj [])) none) ∧
    (∀ (c : KmsClient) (keys : Option (List KeyListEntry)),
      c.ListKeys = .ok { Keys := keys } → rangeOf keys = [] →
      ListKmsKeysWithMetadata (.ok c) = .ret (some (Json.arr [])) none) ∧
    (∀ (c : S3Client) (buckets : Option (List Bucket)),
      c.ListBuckets = .ok { Buckets := buckets } → rangeOf buckets = [] →
      ListS3BucketsWithMetadata (.ok c) = .ret (some (Json.arr [])) none) ∧
    (∀ (c : DynamoClient), c.ListTables = .ok { TableNames := some [] } →
      ListDynamoDbTables (.ok c) = .ret (some (Json.arr [])) none) := by
  refine ⟨?_, ?_, ?_, ?_⟩
  · intro c names h hn
    simp [GetDynamoDbTableMetadata, h, hn, describeTables]
  · intro c keys h hn
    simp [ListKmsKeysWithMetadata, h, hn, describeKeys]
  · intro c buckets h hn
    simp [ListS3BucketsWithMetadata, h, hn, describeBuckets]
  · intro c h
    simp [ListDynamoDbTables, h, marshalStrings]

/-- C6: when `ListTables` succeeds with no slice of names (nil), `ListDynamoDbTables`
returns success, and the document it serialises is `null`, which is not the empty array. -/
theorem ListDynamoDbTables_nil_listing_gives_null :
    dynamoNil.ListTables = .ok { TableNames := none } ∧
    ListDynamoDbTables (.ok dynamoNil) = .ret (some Json.null) none ∧
    Json.null ≠ Json.arr [] :=
  ⟨rfl, rfl, fun h => Json.noConfusion h⟩

/-! ## A failing describe call in the table and key handlers -/

theorem describeTables_of_first_failure (c : DynamoClient) (pre : List String)
    (t : String) (post : List String) (e : String)
    (hpre : ∀ u ∈ pre, ∃ td, c.DescribeTable u = .ok { Table := some td })
    (ht : c.DescribeTable t = .error e) (acc : List (String × Json)) :
    describeTables c (pre ++ t :: post) acc =
      .ret none (some ("failed to describe table " ++ t ++ ": " ++ e)) := by
  induction pre generalizing acc with
  | nil => simp [describeTables, ht]
  | cons u rest ih =>
    obtain ⟨td, hu⟩ := hpre u (List.mem_cons_self _ _)
    simp only [List.cons_append, describeTables, hu]
    exact ih (fun v hv => hpre v (List.mem_cons_of_mem _ hv)) _

theorem describeKeys_of_first_failure (c : KmsClient) (pre : List KeyListEntry)
    (k : KeyListEntry) (post : List KeyListEntry) (id e : String)
    (hpre : ∀ u ∈ pre, ∃ uid md arn, u.KeyId = some uid ∧
      c.DescribeKey uid = .ok { KeyMetadata := some md } ∧ md.Arn = some arn)
    (hk : k.KeyId = some id) (hd : c.DescribeKey id = .error e) (acc : List Json) :
    describeKeys c (pre ++ k :: post) acc =
      .ret none (some ("failed to describe key " ++ id ++ ": " ++ e)) := by
  induction pre generalizing acc with
  | nil => simp [describeKeys, hk, hd]
  | cons u rest ih =>
    obtain ⟨uid, md, arn, hu, hdu, harn⟩ := hpre u (List.mem_cons_self _ _)
    simp only [List.cons_append, describeKeys, hu, hdu, harn]
    exact ih (fun v hv => hpre v (List.mem_cons_of_mem _ hv)) _

/-- C2 (as stated, refuted): with `ListTables` returning the table `t` and `DescribeTable`
failing for it, `GetDynamoDbTableMetadata` returns a nil result and an error; likewise
`ListKmsKeysWithMetadata` with `ListKeys` returning the key `k` and `DescribeKey` failing. -/
theorem describe_failure_is_surfaced :
    (dynamoDenied.ListTables = .ok { TableNames := some ["t"] } ∧
      dynamoDenied.DescribeTable "t" = .error "denied" ∧
      GetDynamoDbTableMetadata (.ok dynamoDenied) =
        .ret none (some "failed to describe table t: denied")) ∧
    (kmsDenied.ListKeys = .ok { Keys := some [{ KeyId := some "k" }] } ∧
      kmsDenied.DescribeKey "k" = .error "denied" ∧
      ListKmsKeysWithMetadata (.ok kmsDenied) =
        .ret none (some "failed to describe key k: denied")) :=
  ⟨⟨rfl, rfl, rfl⟩, ⟨rfl, rfl, rfl⟩⟩

theorem describeTables_no_result_of_failure (c : DynamoClient) (names : List String)
    (hfail : ∃ t ∈ names, ∃ e, c.DescribeTable t = .error e)
    (acc : List (String × Json)) (doc : Json) (e : Option String) :
    describeTables c names acc ≠ .ret (some doc) e := by
  induction names generalizing acc with
  | nil =>
    obtain ⟨t, ht, _⟩ := hfail
    cases ht
  | cons n rest ih =>
    cases hn : c.DescribeTable n with
    | error err => simp [describeTables, hn]
    | ok out =>
      cases hT : out.Table with
      | none => simp [describeTables, hn, hT]
      | some td =>
        have hfail' : ∃ t ∈ rest, ∃ e, c.DescribeTable t = .error e := by
          obtain ⟨t, ht, e, he⟩ := hfail
          rcases List.mem_cons.mp ht with h | h
          · subst h
            rw [hn] at he
            cases he
          · exact ⟨t, h, e, he⟩
        simp only [describeTables, hn, hT]
        exact ih hfail' _

theorem describeKeys_no_result_of_failure (c : KmsClient) (keys : List KeyListEntry)
    (hfail : ∃ k ∈ keys, ∃ id e, k.KeyId = some id ∧ c.DescribeKey id = .error e)
    (acc : List Json) (doc : Json) (e : Option String) :
    describeKeys c keys acc ≠ .ret (some doc) e := by
  induction keys generalizing acc with
  | nil =>
    obtain ⟨k, hk, _⟩ := hfail
    cases hk
  | cons k₀ rest ih =>
    cases hk₀ : k₀.KeyId with
    | none => simp [describeKeys, hk₀]
    | some id₀ =>
      cases hd : c.DescribeKey id₀ with
      | error err => simp [describeKeys, hk₀, hd]
      | ok out =>
        cases hmd : out.KeyMetadata with
        | none => simp [describeKeys, hk₀, hd, hmd]
        | some md =>
          cases harn : md.Arn with
          | none => simp [describeKeys, hk₀, hd, hmd, harn]
          | some arn =>
            have hfail' : ∃ k ∈ rest, ∃ id e,
                k.KeyId = some id ∧ c.DescribeKey id = .error e := by
              obtain ⟨k, hk, id, e, hkid, he⟩ := hfail
              rcases List.mem_cons.mp hk with h | h
              · subst h
                rw [hk₀] at hkid
                cases hkid
                rw [hd] at he
                cases he
              · exact ⟨k, h, id, e, hkid, he⟩
            simp only [describeKeys, hk₀, hd, hmd, harn]
            exact ih hfail' _

/-- C2 (amended): in `GetDynamoDbTableMetadata` and `ListKmsKeysWithMetadata`, when the list
step succeeds and the describe call fails for some listed resource, the handler returns no
result; and when that resource is the first one whose describe call fails (a key then has
an id), the calls for the resources listed before it having succeeded with the members the
handler dereferences (the table description; the key id and the key metadata with its ARN),
the handler returns a nil result and the error naming that resource. Nothing is assumed of
the resources listed after it. -/
theorem describe_failure_returns_error_and_no_result :
    (∀ (c : DynamoClient) (names : Option (List String)),
      c.ListTables = .ok { TableNames := names } →
      ((∃ t ∈ rangeOf names, ∃ e, c.DescribeTable t = .error e) →
        ∀ doc e, GetDynamoDbTableMetadata (.ok c) ≠ .ret (some doc) e) ∧
      (∀ pre t post e, rangeOf names = pre ++ t :: post →
        (∀ u ∈ pre, ∃ td, c.DescribeTable u = .ok { Table := some td }) →
        c.DescribeTable t = .error e →
        GetDynamoDbTableMetadata (.ok c) =
          .ret none (some ("failed to describe table " ++ t ++ ": " ++ e)))) ∧
    (∀ (c : KmsClient) (keys : Option (List KeyListEntry)),
      c.ListKeys = .ok { Keys := keys } →
      ((∃ k ∈ rangeOf keys, ∃ id e, k.KeyId = some id ∧ c.DescribeKey id = .error e) →
        ∀ doc e, ListKmsKeysWithMetadata (.ok c) ≠ .ret (some doc) e) ∧
      (∀ pre k post id e, rangeOf keys = pre ++ k :: post →
        (∀ u ∈ pre, ∃ uid md arn, u.KeyId = some uid ∧
          c.DescribeKey uid = .ok { KeyMetadata := some md } ∧ md.Arn = some arn) →
        k.KeyId = some id → c.DescribeKey id = .error e →
        ListKmsKeysWithMetadata (.ok c) =
          .ret none (some ("failed to describe key " ++ id ++ ": " ++ e)))) := by
  refine ⟨?_, ?_⟩
  · intro c names hl
    refine ⟨?_, ?_⟩
    · intro hfail doc e
      simpa [GetDynamoDbTableMetadata, hl] using
        describeTables_no_result_of_failure c (rangeOf names) hfail [] doc e
    · intro pre t post e hsplit hpre ht
      simp only [GetDynamoDbTableMetadata, hl, hsplit]
      exact describeTables_of_first_failure c pre t post e hpre ht []
  · intro c keys hl
    refine ⟨?_, ?_⟩
    · intro hfail doc e
      simpa [ListKmsKeysWithMetadata, hl] using
        describeKeys_no_result_of_failure c (rangeOf keys) hfail [] doc e
    · intro pre k post id e hsplit hpre hk hd
      simp only [ListKmsKeysWithMetadata, hl, hsplit]
      exact describeKeys_of_first_failure c pre k post id e hpre hk hd []

theorem describe_failure_returns_error_and_no_result_witness :
    ((∀ doc e, GetDynamoDbTableMetadata (.ok dynamoSecondDenied) ≠ .ret (some doc) e) ∧
      GetDynamoDbTableMetadata (.ok dynamoSecondDenied) =
        .ret none (some ("failed to describe table " ++ "t" ++ ": " ++ "denied"))) ∧
    ((∀ doc e, ListKmsKeysWithMetadata (.ok kmsSecondDenied) ≠ .ret (some doc) e) ∧
      ListKmsKeysWithMetadata (.ok kmsSecondDenied) =
        .ret none (some ("failed to describe key " ++ "k2" ++ ": " ++ "denied"))) :=
  ⟨⟨(describe_failure_returns_error_and_no_result.1 dynamoSecondDenied
        (some ["orders", "t", "users"]) rfl).1
        ⟨"t", by simp [rangeOf], "denied", rfl⟩,
    (describe_failure_returns_error_and_no_result.1 dynamoSecondDenied
        (some ["orders", "t", "users"]) rfl).2 ["orders"] "t" ["users"] "denied" rfl
        (by
          intro u hu
          simp only [List.mem_singleton] at hu
          subst hu
          exact ⟨_, rfl⟩)
        rfl⟩,
   ⟨(describe_failure_returns_error_and_no_result.2 kmsSecondDenied
        (some [{ KeyId := some "k1" }, { KeyId := some "k2" }, { KeyId := none }]) rfl).1
        ⟨{ KeyId := some "k2" }, by simp [rangeOf], "k2", "denied", rfl, rfl⟩,
    (describe_failure_returns_error_and_no_result.2 kmsSecondDenied
        (some [{ KeyId := some "k1" }, { KeyId := some "k2" }, { KeyId := none }]) rfl).2
        [{ KeyId := some "k1" }] { KeyId := some "k2" } [{ KeyId := none }] "k2" "denied" rfl
        (by
          intro u hu
          simp only [List.mem_singleton] at hu
          subst hu
          exact ⟨"k1", sampleKeyMetadata, _, rfl, rfl, rfl⟩)
        rfl rfl⟩⟩

/-! ## Successful describe calls in the table and key handlers -/

theorem forall₂_index {α β : Type} {R : α → β → Prop} {l₁ : List α} {l₂ : List β}
    (h : List.Forall₂ R l₁ l₂) :
    l₂.length = l₁.length ∧ ∀ (i : Nat) (a : α), l₁[i]? = some a → ∃ b, l₂[i]? = some b ∧ R a b := by
  induction h with
  | nil => exact ⟨rfl, by simp⟩
  | cons hab _ ih =>
    refine ⟨by simp [ih.1], ?_⟩
    intro i a ha
    cases i with
    | zero =>
      simp only [List.getElem?_cons_zero, Option.some.injEq] at ha
      subst ha
      exact ⟨_, by simp, hab⟩
    | succ j =>
      simp only [List.getElem?_cons_succ] at ha ⊢
      exact ih.2 j a ha

theorem describeTables_of_success (c : DynamoClient) (names : List String)
    (hok : ∀ t ∈ names, ∃ td, c.DescribeTable t = .ok { Table := some td })
    (acc : List (String × Json)) (hacc : (mapKeys acc).Nodup) :
    ∃ m, describeTables c names acc = .ret (some (Json.obj m)) none ∧
      (mapKeys m).Nodup ∧
      (∀ k, k ∈ mapKeys m ↔ k ∈ mapKeys acc ∨ k ∈ names) ∧
      (∀ t ∈ names, ∀ td, c.DescribeTable t = .ok { Table := some td } →
        mapGet m t = some (Json.obj [("CreatedDate", td.CreationDateTime),
                                     ("SizeBytes", td.TableSizeBytes),
                                     ("PricingModel", td.BillingModeSummary)])) ∧
      (∀ k, k ∉ names → mapGet m k = mapGet acc k) := by
  induction names generalizing acc with
  | nil => exact ⟨acc, rfl, hacc, by simp, by simp, fun _ _ => rfl⟩
  | cons n rest ih =>
    obtain ⟨td, hn⟩ := hok n (List.mem_cons_self _ _)
    obtain ⟨m, hres, hnd, hkeys, hvals, hother⟩ :=
      ih (fun t ht => hok t (List.mem_cons_of_mem _ ht))
        (mapSet acc n
          (Json.obj [("CreatedDate", td.CreationDateTime),
                     ("SizeBytes", td.TableSizeBytes),
                     ("PricingModel", td.BillingModeSummary)]))
        (nodup_mapKeys_mapSet _ _ _ hacc)
    refine ⟨m, by simp [describeTables, hn, hres], hnd, ?_, ?_, ?_⟩
    · intro k
      rw [hkeys k, mem_mapKeys_mapSet, List.mem_cons]
      tauto
    · intro t ht td' htd'
      by_cases hr : t ∈ rest
      · exact hvals t hr td' htd'
      · have htn : t = n := (List.mem_cons.mp ht).resolve_right hr
        subst htn
        rw [hn] at htd'
        injection htd' with h1
        injection h1 with h2
        injection h2 with h3
        subst h3
        rw [hother t hr, mapGet_mapSet_self]
    · intro k hk
      have hkn : n ≠ k := fun h => hk (h ▸ List.mem_cons_self _ _)
      have hkr : k ∉ rest := fun h => hk (List.mem_cons_of_mem _ h)
      rw [hother k hkr, mapGet_mapSet_ne _ _ _ _ hkn]

theorem describeKeys_of_success (c : KmsClient) (keys : List KeyListEntry)
    (hok : ∀ k ∈ keys, ∃ id md arn, k.KeyId = some id ∧
      c.DescribeKey id = .ok { KeyMetadata := some md } ∧ md.Arn = some arn)
    (acc : List Json) :
    ∃ recs, describeKeys c keys acc = .ret (some (Json.arr (acc ++ recs))) none ∧
      List.Forall₂ (fun k r => ∃ id md arn, k.KeyId = some id ∧
        c.DescribeKey id = .ok { KeyMetadata := some md } ∧ md.Arn = some arn ∧
        r = Json.obj [("KeyId", Json.str id),
                      ("Arn", Json.str arn),
                      ("CreationDate", md.CreationDate),
                      ("Description", md.Description),
                      ("Enabled", md.Enabled),
                      ("KeyState", md.KeyState),
                      ("KeyManager", md.KeyManager),
                      ("KeyUsage", md.KeyUsage)]) keys recs := by
  induction keys generalizing acc with
  | nil => exact ⟨[], by simp [describeKeys], List.Forall₂.nil⟩
  | cons k rest ih =>
    obtain ⟨id, md, arn, hid, hd, harn⟩ := hok k (List.mem_cons_self _ _)
    obtain ⟨recs, hres, hall⟩ :=
      ih (fun k hk => hok k (List.mem_cons_of_mem _ hk))
        (acc ++
          [Json.obj [("KeyId", Json.str id),
                     ("Arn", Json.str arn),
                     ("CreationDate", md.CreationDate),
                     ("Description", md.Description),
                     ("Enabled", md.Enabled),
                     ("KeyState", md.KeyState),
                     ("KeyManager", md.KeyManager),
                     ("KeyUsage", md.KeyUsage)]])
    refine ⟨_ :: recs, ?_, List.Forall₂.cons ⟨id, md, arn, hid, hd, harn, rfl⟩ hall⟩
    simp [describeKeys, hid, hd, harn, hres]

/-- C8 (as stated, refuted): with `ListTables` returning the table `t` and `DescribeTable`
succeeding for it with an output that holds no table description,
`GetDynamoDbTableMetadata` panics instead of returning a result. -/
theorem describe_without_table_panics :
    dynamoNoTable.ListTables = .ok { TableNames := some ["t"] } ∧
    dynamoNoTable.DescribeTable "t" = .ok { Table := none } ∧
    GetDynamoDbTableMetadata (.ok dynamoNoTable) = .panic :=
  ⟨rfl, rfl, rfl⟩

/-- C8 (amended): when `ListTables` succeeds and `DescribeTable` succeeds, with a table
description, for every listed name, `GetDynamoDbTableMetadata` returns an object whose keys
are distinct and are exactly the listed names (also when a name is listed more than once),
and whose value at a name is the object of the three members `CreatedDate`, `SizeBytes`,
`PricingModel` taken from the creation date-time, size and billing-mode summary of the
description. -/
theorem GetDynamoDbTableMetadata_of_success (c : DynamoClient) (names : Option (List String))
    (hl : c.ListTables = .ok { TableNames := names })
    (hok : ∀ t ∈ rangeOf names, ∃ td, c.DescribeTable t = .ok { Table := some td }) :
    ∃ m, GetDynamoDbTableMetadata (.ok c) = .ret (some (Json.obj m)) none ∧
      (mapKeys m).Nodup ∧
      (∀ k, k ∈ mapKeys m ↔ k ∈ rangeOf names) ∧
      (∀ t ∈ rangeOf names, ∀ td, c.DescribeTable t = .ok { Table := some td } →
        mapGet m t = some (Json.obj [("CreatedDate", td.CreationDateTime),
                                     ("SizeBytes", td.TableSizeBytes),
                                     ("PricingModel", td.BillingModeSummary)])) := by
  obtain ⟨m, hres, hnd, hkeys, hvals, -⟩ :=
    describeTables_of_success c (rangeOf names) hok [] (by simp [mapKeys])
  refine ⟨m, by simp [GetDynamoDbTableMetadata, hl, hres], hnd, ?_, hvals⟩
  intro k
  rw [hkeys k]
  simp [mapKeys]

/-- C9: when `ListKeys` succeeds with keys that each have an id and `DescribeKey` succeeds
for each of them with key metadata carrying an ARN, `ListKmsKeysWithMetadata` returns an
array of as many records as keys, in list order, the record at a position being the object
of the eight members `KeyId` (the listed id), `Arn`, `CreationDate`, `Description`,
`Enabled`, `KeyState`, `KeyManager`, `KeyUsage` (from the key metadata). -/
theorem ListKmsKeysWithMetadata_of_success (c : KmsClient)
    (keys : Option (List KeyListEntry))
    (hl : c.ListKeys = .ok { Keys := keys })
    (hok : ∀ k ∈ rangeOf keys, ∃ id md arn, k.KeyId = some id ∧
      c.DescribeKey id = .ok { KeyMetadata := some md } ∧ md.Arn = some arn) :
    ∃ recs, ListKmsKeysWithMetadata (.ok c) = .ret (some (Json.arr recs)) none ∧
      recs.length = (rangeOf keys).length ∧
      ∀ (i : Nat) (k : KeyListEntry) id md arn, (rangeOf keys)[i]? = some k → k.KeyId = some id →
        c.DescribeKey id = .ok { KeyMetadata := some md } → md.Arn = some arn →
        recs[i]? = some (Json.obj [("KeyId", Json.str id),
                                   ("Arn", Json.str arn),
                                   ("CreationDate", md.CreationDate),
                                   ("Description", md.Description),
                                   ("Enabled", md.Enabled),
                                   ("KeyState", md.KeyState),
                                   ("KeyManager", md.KeyManager),
                                   ("KeyUsage", md.KeyUsage)]) := by
  obtain ⟨recs, hres, hall⟩ := describeKeys_of_success c (rangeOf keys) hok []
  obtain ⟨hlen, hidx⟩ := forall₂_index hall
  refine ⟨recs, by simpa [ListKmsKeysWithMetadata, hl] using hres, hlen, ?_⟩
  intro i k id md arn hi hid hd harn
  obtain ⟨r, hr, id', md', arn', hid', hd', harn', hrec⟩ := hidx i k hi
  rw [hid] at hid'
  injection hid' with h1
  subst h1
  rw [hd] at hd'
  injection hd' with h2
  injection h2 with h3
  injection h3 with h4
  subst h4
  rw [harn] at harn'
  injection harn' with h5
  subst h5
  rw [hr, hrec]

/-! ## The bucket handler -/

theorem collectTags_spec (ts : List Tag)
    (hwf : ∀ t ∈ ts, t.Key ≠ none ∧ t.Value ≠ none)
    (acc : List (String × String)) (hacc : (mapKeys acc).Nodup) :
    ∃ tags, collectTags ts acc = some tags ∧
      (mapKeys tags).Nodup ∧
      (∀ k, k ∈ mapKeys tags ↔ k ∈ mapKeys acc ∨ ∃ t ∈ ts, t.Key = some k) ∧
      (∀ pre t post k v, ts = pre ++ t :: post → t.Key = some k → t.Value = some v →
        (∀ u ∈ post, u.Key ≠ some k) → mapGet tags k = some v) ∧
      (∀ k, (∀ t ∈ ts, t.Key ≠ some k) → mapGet tags k = mapGet acc k) := by
  induction ts generalizing acc with
  | nil =>
    refine ⟨acc, rfl, hacc, by simp, ?_, fun _ _ => rfl⟩
    intro pre t post k v h
    simp at h
  | cons t₀ rest ih =>
    obtain ⟨hk₀, hv₀⟩ := hwf t₀ (List.mem_cons_self _ _)
    obtain ⟨k₀, hk₀⟩ := Option.ne_none_iff_exists'.mp hk₀
    obtain ⟨v₀, hv₀⟩ := Option.ne_none_iff_exists'.mp hv₀
    obtain ⟨tags, hres, hnd, hkeys, hlast, hother⟩ :=
      ih (fun t ht => hwf t (List.mem_cons_of_mem _ ht)) (mapSet acc k₀ v₀)
        (nodup_mapKeys_mapSet _ _ _ hacc)
    refine ⟨tags, by simp [collectTags, hk₀, hv₀, hres], hnd, ?_, ?_, ?_⟩
    · intro k
      rw [hkeys k, mem_mapKeys_mapSet]
      constructor
      · rintro ((h | h) | ⟨t, ht, htk⟩)
        · exact Or.inr ⟨t₀, List.mem_cons_self _ _, h ▸ hk₀⟩
        · exact Or.inl h
        · exact Or.inr ⟨t, List.mem_cons_of_mem _ ht, htk⟩
      · rintro (h | ⟨t, ht, htk⟩)
        · exact Or.inl (Or.inr h)
        · rcases List.mem_cons.mp ht with h | h
          · subst h
            rw [hk₀] at htk
            injection htk with h'
            exact Or.inl (Or.inl h'.symm)
          · exact Or.inr ⟨t, h, htk⟩
    · intro pre t post k v hsplit htk htv hpost
      cases pre with
      | nil =>
        simp only [List.nil_append, List.cons.injEq] at hsplit
        obtain ⟨h1, h2⟩ := hsplit
        subst h1
        subst h2
        rw [hk₀] at htk
        injection htk with h3
        subst h3
        rw [hv₀] at htv
        injection htv with h4
        subst h4
        rw [hother _ hpost, mapGet_mapSet_self]
      | cons p pre' =>
        simp only [List.cons_append, List.cons.injEq] at hsplit
        exact hlast pre' t post k v hsplit.2 htk htv hpost
    · intro k hk
      have hne : k₀ ≠ k := fun h => hk t₀ (List.mem_cons_self _ _) (h ▸ hk₀)
      rw [hother k (fun t ht => hk t (List.mem_cons_of_mem _ ht)),
        mapGet_mapSet_ne _ _ _ _ hne]

/-- The members of the map `bucketMetadata` builds for a bucket that has a name and whose
tags, when the tagging call succeeds, each have a key and a value. -/
theorem bucketMetadata_spec (c : S3Client) (b : Bucket) (name : String)
    (hname : b.Name = some name)
    (htags : ∀ out, c.GetBucketTagging name = .ok out →
      ∀ t ∈ out.TagSet, t.Key ≠ none ∧ t.Value ≠ none) :
    ∃ m, bucketMetadata c b = some m ∧
      mapGet m "Name" = some (Json.str name) ∧
      mapGet m "CreationDate" = some b.CreationDate ∧
      mapGet m "Region" =
        (match c.GetBucketLocation name with
          | .ok o => some o.LocationConstraint
          | .error _ => none) ∧
      mapGet m "Versioning" =
        (match c.GetBucketVersioning name with
          | .ok o => some o.Status
          | .error _ => none) ∧
      mapGet m "Encryption" =
        (match c.GetBucketEncryption name with
          | .ok o => o.ServerSideEncryptionConfiguration.map fun cfg => cfg.Rules
          | .error _ => none) ∧
      mapGet m "PublicAccessBlock" =
        (match c.GetPublicAccessBlock name with
          | .ok o => o.PublicAccessBlockConfiguration.map fun cfg =>
              Json.obj [("BlockPublicAcls", cfg.BlockPublicAcls),
                        ("BlockPublicPolicy", cfg.BlockPublicPolicy),
                        ("IgnorePublicAcls", cfg.IgnorePublicAcls),
                        ("RestrictPublicBuckets", cfg.RestrictPublicBuckets)]
          | .error _ => none) ∧
      mapGet m "Tags" =
        (match c.GetBucketTagging name with
          | .ok o => (collectTags o.TagSet []).map marshalStringMap
          | .error _ => none) := by
  unfold bucketMetadata
  simp -zeta only [hname]
  rcases hT : c.GetBucketTagging name with _ | ot
  · rcases c.GetBucketLocation name with _ | ⟨⟨l⟩⟩ <;>
    rcases c.GetBucketVersioning name with _ | ⟨⟨v⟩⟩ <;>
    rcases c.GetBucketEncryption name with _ | ⟨⟨_ | cfgE⟩⟩ <;>
    rcases c.GetPublicAccessBlock name with _ | ⟨⟨_ | cfgP⟩⟩ <;>
    simp [mapSet, mapGet]
  · obtain ⟨tags, htg, -⟩ := collectTags_spec ot.TagSet (htags ot hT) [] (by simp [mapKeys])
    rcases c.GetBucketLocation name with _ | ⟨⟨l⟩⟩ <;>
    rcases c.GetBucketVersioning name with _ | ⟨⟨v⟩⟩ <;>
    rcases c.GetBucketEncryption name with _ | ⟨⟨_ | cfgE⟩⟩ <;>
    rcases c.GetPublicAccessBlock name with _ | ⟨⟨_ | cfgP⟩⟩ <;>
    simp [mapSet, mapGet, htg]

theorem describeBuckets_spec (c : S3Client) (bs : List Bucket)
    (hok : ∀ b ∈ bs, ∃ m, bucketMetadata c b = some m) (acc : List Json) :
    ∃ ms : List (List (String × Json)),
      describeBuckets c bs acc = .ret (some (Json.arr (acc ++ ms.map Json.obj))) none ∧
      List.Forall₂ (fun b m => bucketMetadata c b = some m) bs ms := by
  induction bs generalizing acc with
  | nil => exact ⟨[], by simp [describeBuckets], List.Forall₂.nil⟩
  | cons b rest ih =>
    obtain ⟨m, hm⟩ := hok b (List.mem_cons_self _ _)
    obtain ⟨ms, hres, hall⟩ :=
      ih (fun b hb => hok b (List.mem_cons_of_mem _ hb)) (acc ++ [Json.obj m])
    exact ⟨m :: ms, by simp [describeBuckets, hm, hres], List.Forall₂.cons hm hall⟩

/-- The result of `ListS3BucketsWithMetadata` after a successful list step, when every listed
bucket has a name and every tag of a successful tagging response has a key and a value: one
map per listed bucket, in list order, each the map `bucketMetadata` builds. -/
theorem ListS3BucketsWithMetadata_records (c : S3Client) (buckets : Option (List Bucket))
    (hl : c.ListBuckets = .ok { Buckets := buckets })
    (hnames : ∀ b ∈ rangeOf buckets, b.Name ≠ none)
    (htags : ∀ b ∈ rangeOf buckets, ∀ name out, b.Name = some name →
      c.GetBucketTagging name = .ok out → ∀ t ∈ out.TagSet, t.Key ≠ none ∧ t.Value ≠ none) :
    ∃ ms : List (List (String × Json)),
      ListS3BucketsWithMetadata (.ok c) = .ret (some (Json.arr (ms.map Json.obj))) none ∧
      ms.length = (rangeOf buckets).length ∧
      ∀ (i : Nat) (b : Bucket), (rangeOf buckets)[i]? = some b →
        ∃ m, ms[i]? = some m ∧ bucketMetadata c b = some m := by
  have hok : ∀ b ∈ rangeOf buckets, ∃ m, bucketMetadata c b = some m := by
    intro b hb
    obtain ⟨name, hname⟩ := Option.ne_none_iff_exists'.mp (hnames b hb)
    obtain ⟨m, hm, -⟩ := bucketMetadata_spec c b name hname (fun out => htags b hb name out hname)
    exact ⟨m, hm⟩
  obtain ⟨ms, hres, hall⟩ := describeBuckets_spec c (rangeOf buckets) hok []
  obtain ⟨hlen, hidx⟩ := forall₂_index hall
  exact ⟨ms, by simpa [ListS3BucketsWithMetadata, hl] using hres, hlen, hidx⟩

theorem collectTags_inv (ts : List Tag) (acc tags : List (String × String))
    (h : collectTags ts acc = some tags) : ∀ t ∈ ts, t.Key ≠ none ∧ t.Value ≠ none := by
  induction ts generalizing acc with
  | nil => simp
  | cons t₀ rest ih =>
    cases hk : t₀.Key with
    | none => simp [collectTags, hk] at h
    | some k =>
      cases hv : t₀.Value with
      | none => simp [collectTags, hk, hv] at h
      | some v =>
        simp only [collectTags, hk, hv] at h
        intro t ht
        rcases List.mem_cons.mp ht with rfl | ht'
        · simp [hk, hv]
        · exact ih _ h t ht'

theorem bucketMetadata_inv (c : S3Client) (b : Bucket) (m : List (String × Json))
    (h : bucketMetadata c b = some m) :
    ∃ name, b.Name = some name ∧
      ∀ out, c.GetBucketTagging name = .ok out →
        ∀ t ∈ out.TagSet, t.Key ≠ none ∧ t.Value ≠ none := by
  unfold bucketMetadata at h
  cases hN : b.Name with
  | none => simp [hN] at h
  | some name =>
    refine ⟨name, rfl, ?_⟩
    intro out hout
    simp -zeta only [hN, hout] at h
    cases hC : collectTags out.TagSet [] with
    | none => simp -zeta only [hC] at h; simp at h
    | some tags => exact collectTags_inv _ _ _ hC

theorem describeBuckets_inv (c : S3Client) (bs : List Bucket) (acc : List Json)
    (r : Option Json) (e : Option String) (h : describeBuckets c bs acc = .ret r e) :
    e = none ∧ ∃ ms : List (List (String × Json)),
      r = some (Json.arr (acc ++ ms.map Json.obj)) ∧
      List.Forall₂ (fun b m => bucketMetadata c b = some m) bs ms := by
  induction bs generalizing acc with
  | nil =>
    simp only [describeBuckets, Outcome.ret.injEq] at h
    exact ⟨h.2.symm, [], by simp [h.1], List.Forall₂.nil⟩
  | cons b rest ih =>
    cases hb : bucketMetadata c b with
    | none => simp [describeBuckets, hb] at h
    | some m =>
      simp only [describeBuckets, hb] at h
      obtain ⟨he, ms, hr, hall⟩ := ih _ h
      exact ⟨he, m :: ms, by simp [hr], List.Forall₂.cons hb hall⟩

/-- Whatever `ListS3BucketsWithMetadata` returns after a successful list step is a result
without error: an array of one map per listed bucket, in list order, each the map
`bucketMetadata` builds. -/
theorem ListS3BucketsWithMetadata_inv (c : S3Client) (buckets : Option (List Bucket))
    (hl : c.ListBuckets = .ok { Buckets := buckets })
    (r : Option Json) (e : Option String)
    (h : ListS3BucketsWithMetadata (.ok c) = .ret r e) :
    e = none ∧ ∃ ms : List (List (String × Json)),
      r = some (Json.arr (ms.map Json.obj)) ∧
      List.Forall₂ (fun b m => bucketMetadata c b = some m) (rangeOf buckets) ms := by
  simp only [ListS3BucketsWithMetadata, hl] at h
  obtain ⟨he, ms, hr, hall⟩ := describeBuckets_inv c _ _ r e h
  exact ⟨he, ms, by simpa using hr, hall⟩

/-- The keys of the five optional field groups in the map `bucketMetadata` builds. -/
theorem bucketMetadata_keys (c : S3Client) (b : Bucket) (name : String)
    (hname : b.Name = some name)
    (htags : ∀ out, c.GetBucketTagging name = .ok out →
      ∀ t ∈ out.TagSet, t.Key ≠ none ∧ t.Value ≠ none)
    (m : List (String × Json)) (hm : bucketMetadata c b = some m) :
    ("Region" ∈ mapKeys m ↔ ∃ o, c.GetBucketLocation name = .ok o) ∧
    ("Versioning" ∈ mapKeys m ↔ ∃ o, c.GetBucketVersioning name = .ok o) ∧
    ("Encryption" ∈ mapKeys m ↔ ∃ cfg, c.GetBucketEncryption name =
      .ok { ServerSideEncryptionConfiguration := some cfg }) ∧
    ("PublicAccessBlock" ∈ mapKeys m ↔ ∃ cfg, c.GetPublicAccessBlock name =
      .ok { PublicAccessBlockConfiguration := some cfg }) ∧
    ("Tags" ∈ mapKeys m ↔ ∃ o, c.GetBucketTagging name = .ok o) := by
  obtain ⟨m', hm', -, -, hR, hV, hE, hP, hT⟩ := bucketMetadata_spec c b name hname htags
  rw [hm] at hm'
  injection hm' with hmm
  subst hmm
  refine ⟨?_, ?_, ?_, ?_, ?_⟩
  · rw [← mapGet_isSome_iff, hR]
    rcases c.GetBucketLocation name with _ | ⟨⟨l⟩⟩ <;> simp
  · rw [← mapGet_isSome_iff, hV]
    rcases c.GetBucketVersioning name with _ | ⟨⟨v⟩⟩ <;> simp
  · rw [← mapGet_isSome_iff, hE]
    rcases c.GetBucketEncryption name with _ | ⟨⟨_ | cfg⟩⟩ <;> simp
  · rw [← mapGet_isSome_iff, hP]
    rcases c.GetPublicAccessBlock name with _ | ⟨⟨_ | cfg⟩⟩ <;> simp
  · rw [← mapGet_isSome_iff, hT]
    rcases hG : c.GetBucketTagging name with _ | ot
    · simp
    · obtain ⟨tags, htg, -⟩ :=
        collectTags_spec ot.TagSet (htags ot hG) [] (by simp [mapKeys])
      simp [htg]


/-- The members of a map that `bucketMetadata` has built: the bucket has a name, the tags of
a successful tagging response each have a key and a value, and the members are those of
`bucketMetadata_spec`. -/
theorem bucketMetadata_members (c : S3Client) (b : Bucket) (m : List (String × Json))
    (hm : bucketMetadata c b = some m) :
    ∃ name, b.Name = some name ∧
      (∀ out, c.GetBucketTagging name = .ok out →
        ∀ t ∈ out.TagSet, t.Key ≠ none ∧ t.Value ≠ none) ∧
      mapGet m "Name" = some (Json.str name) ∧
      mapGet m "CreationDate" = some b.CreationDate ∧
      mapGet m "Tags" =
        (match c.GetBucketTagging name with
          | .ok o => (collectTags o.TagSet []).map marshalStringMap
          | .error _ => none) := by
  obtain ⟨name, hname, hwf⟩ := bucketMetadata_inv c b m hm
  obtain ⟨m', hm', hN, hC, -, -, -, -, hT⟩ := bucketMetadata_spec c b name hname hwf
  rw [hm] at hm'
  injection hm' with hmm
  subst hmm
  exact ⟨name, hname, hwf, hN, hC, hT⟩

theorem sampleBuckets_names : ∀ b ∈ rangeOf sampleBuckets, b.Name ≠ none := by
  simp [rangeOf, sampleBuckets]

theorem s3Sample_tags : ∀ b ∈ rangeOf sampleBuckets, ∀ name out, b.Name = some name →
    s3Sample.GetBucketTagging name = .ok out →
    ∀ t ∈ out.TagSet, t.Key ≠ none ∧ t.Value ≠ none := by
  intro b _ name out _ hout
  simp only [s3Sample] at hout
  split at hout
  · cases hout
  · injection hout with h
    subst h
    simp

/-- The whole document `ListS3BucketsWithMetadata` gives at `s3Sample`: the tag `env` of `a`
carries its last value, and the record of `b`, whose tagging call fails, has no tags. -/
theorem s3Sample_document :
    ListS3BucketsWithMetadata (.ok s3Sample) = .ret (some s3SampleDocument) none :=
  rfl

/-! ## The number of records -/

/-- C1 (as stated, refuted): `s3NilTagKey` lists one bucket, which has a name, and each of
the five calls succeeds for it; the tagging response holds a tag without a key, and the
handler panics instead of returning a result. -/
theorem tag_without_key_panics :
    s3NilTagKey.ListBuckets = .ok { Buckets := some [
      { Name := some "a", CreationDate := Json.str "2024-01-01T00:00:00Z" }] } ∧
    s3NilTagKey.GetBucketTagging "a" =
      .ok { TagSet := [{ Key := none, Value := some "v" }] } ∧
    ListS3BucketsWithMetadata (.ok s3NilTagKey) = .panic :=
  ⟨rfl, rfl, rfl⟩

/-- C1 (amended): after a successful `ListBuckets` with `n` buckets that each have a name,
and for every behaviour of the five per-bucket calls (any mix of successes and failures) in
which the tags of a successful tagging response each have a key and a value,
`ListS3BucketsWithMetadata` returns a result and no error, and the result is an array of
exactly `n` records. -/
theorem ListS3BucketsWithMetadata_returns_all_records (c : S3Client)
    (buckets : Option (List Bucket))
    (hl : c.ListBuckets = .ok { Buckets := buckets })
    (hnames : ∀ b ∈ rangeOf buckets, b.Name ≠ none)
    (htags : ∀ b ∈ rangeOf buckets, ∀ name out, b.Name = some name →
      c.GetBucketTagging name = .ok out → ∀ t ∈ out.TagSet, t.Key ≠ none ∧ t.Value ≠ none) :
    ∃ ms : List (List (String × Json)),
      ListS3BucketsWithMetadata (.ok c) = .ret (some (Json.arr (ms.map Json.obj))) none ∧
      ms.length = (rangeOf buckets).length := by
  obtain ⟨ms, hres, hlen, -⟩ := ListS3BucketsWithMetadata_records c buckets hl hnames htags
  exact ⟨ms, hres, hlen⟩

theorem ListS3BucketsWithMetadata_returns_all_records_witness :
    ∃ ms : List (List (String × Json)),
      ListS3BucketsWithMetadata (.ok s3Sample) =
        .ret (some (Json.arr (ms.map Json.obj))) none ∧
      ms.length = 2 :=
  ListS3BucketsWithMetadata_returns_all_records s3Sample sampleBuckets rfl
    sampleBuckets_names s3Sample_tags

/-! ## The order of the records -/

/-- C7 (as stated, refuted): `s3NamelessBucket` lists one bucket, which has no name, and
`s3NilTagValue` lists one bucket whose tagging call succeeds with a tag without a value; in
both the list step succeeds, and the handler panics instead of returning records. -/
theorem nameless_bucket_or_tag_without_value_panics :
    (s3NamelessBucket.ListBuckets = .ok { Buckets := some [
        { Name := none, CreationDate := Json.str "2024-01-01T00:00:00Z" }] } ∧
      ListS3BucketsWithMetadata (.ok s3NamelessBucket) = .panic) ∧
    (s3NilTagValue.ListBuckets = .ok { Buckets := some [
        { Name := some "a", CreationDate := Json.str "2024-01-01T00:00:00Z" }] } ∧
      s3NilTagValue.GetBucketTagging "a" =
        .ok { TagSet := [{ Key := some "env", Value := none }] } ∧
      ListS3BucketsWithMetadata (.ok s3NilTagValue) = .panic) :=
  ⟨⟨rfl, rfl⟩, ⟨rfl, rfl, rfl⟩⟩

/-- C7 (amended): after a successful `ListBuckets` in which every bucket has a name, and for
every behaviour of the per-bucket calls in which the tags of a successful tagging response
each have a key and a value, `ListS3BucketsWithMetadata` returns a result with one record
per listed bucket, in list order: the record at position `i` has `Name` equal to the name
of the bucket at position `i` of the listing and `CreationDate` equal to its creation date,
whichever of the per-bucket calls fail. -/
theorem ListS3BucketsWithMetadata_keeps_list_order (c : S3Client)
    (buckets : Option (List Bucket))
    (hl : c.ListBuckets = .ok { Buckets := buckets })
    (hnames : ∀ b ∈ rangeOf buckets, b.Name ≠ none)
    (htags : ∀ b ∈ rangeOf buckets, ∀ name out, b.Name = some name →
      c.GetBucketTagging name = .ok out → ∀ t ∈ out.TagSet, t.Key ≠ none ∧ t.Value ≠ none) :
    ∃ ms : List (List (String × Json)),
      ListS3BucketsWithMetadata (.ok c) = .ret (some (Json.arr (ms.map Json.obj))) none ∧
      ms.length = (rangeOf buckets).length ∧
      ∀ (i : Nat) (b : Bucket) (name : String),
        (rangeOf buckets)[i]? = some b → b.Name = some name →
        ∃ m, ms[i]? = some m ∧ mapGet m "Name" = some (Json.str name) ∧
          mapGet m "CreationDate" = some b.CreationDate := by
  obtain ⟨ms, hres, hlen, hidx⟩ := ListS3BucketsWithMetadata_records c buckets hl hnames htags
  refine ⟨ms, hres, hlen, ?_⟩
  intro i b name hi hname
  obtain ⟨m, hm, hbm⟩ := hidx i b hi
  obtain ⟨name', hname', -, hN, hC, -⟩ := bucketMetadata_members c b m hbm
  rw [hname] at hname'
  injection hname' with h
  subst h
  exact ⟨m, hm, hN, hC⟩

theorem ListS3BucketsWithMetadata_keeps_list_order_witness :
    ∃ ms : List (List (String × Json)),
      ListS3BucketsWithMetadata (.ok s3Sample) =
        .ret (some (Json.arr (ms.map Json.obj))) none ∧
      ms.length = 2 ∧
      ∀ (i : Nat) (b : Bucket) (name : String),
        (rangeOf sampleBuckets)[i]? = some b → b.Name = some name →
        ∃ m, ms[i]? = some m ∧ mapGet m "Name" = some (Json.str name) ∧
          mapGet m "CreationDate" = some b.CreationDate :=
  ListS3BucketsWithMetadata_keeps_list_order s3Sample sampleBuckets rfl
    sampleBuckets_names s3Sample_tags

/-! ## The optional field groups -/

/-- C3 (as stated, refuted): with the listing `a`, `b` of `s3NilConfig`, the call
`GetBucketEncryption` for `a` returns without error (with no configuration inside), and the
record of `a` has no `Encryption` key. -/
theorem encryption_absent_after_successful_call :
    s3NilConfig.GetBucketEncryption "a" = .ok { ServerSideEncryptionConfiguration := none } ∧
    ListS3BucketsWithMetadata (.ok s3NilConfig) =
      .ret (some (Json.arr [Json.obj nilConfigRecordA, Json.obj nilConfigRecordB])) none ∧
    mapGet nilConfigRecordA "Name" = some (Json.str "a") ∧
    mapGet nilConfigRecordA "Encryption" = none :=
  ⟨rfl, rfl, rfl, rfl⟩

/-- C3 (amended): in a result that `ListS3BucketsWithMetadata` returns, for every listed
bucket, `Region`, `Versioning` and `Tags` are keys of the record of the bucket exactly when
`GetBucketLocation`, `GetBucketVersioning` and `GetBucketTagging` returned without error;
`Encryption` and `PublicAccessBlock` are keys of the record exactly when
`GetBucketEncryption` and `GetPublicAccessBlock` returned without error and with a
configuration that is not nil. The handler returns a result when every listed bucket has a
name and the tags of every successful tagging response have a key and a value. -/
theorem field_group_present_iff_call_succeeded (c : S3Client)
    (buckets : Option (List Bucket))
    (hl : c.ListBuckets = .ok { Buckets := buckets }) :
    ((∀ b ∈ rangeOf buckets, b.Name ≠ none) →
      (∀ b ∈ rangeOf buckets, ∀ name out, b.Name = some name →
        c.GetBucketTagging name = .ok out →
        ∀ t ∈ out.TagSet, t.Key ≠ none ∧ t.Value ≠ none) →
      ∃ doc, ListS3BucketsWithMetadata (.ok c) = .ret (some doc) none) ∧
    ∀ doc, ListS3BucketsWithMetadata (.ok c) = .ret (some doc) none →
      ∃ ms : List (List (String × Json)),
        doc = Json.arr (ms.map Json.obj) ∧
        ms.length = (rangeOf buckets).length ∧
        ∀ (i : Nat) (b : Bucket), (rangeOf buckets)[i]? = some b →
          ∃ name m, b.Name = some name ∧ ms[i]? = some m ∧
            ("Region" ∈ mapKeys m ↔ ∃ o, c.GetBucketLocation name = .ok o) ∧
            ("Versioning" ∈ mapKeys m ↔ ∃ o, c.GetBucketVersioning name = .ok o) ∧
            ("Encryption" ∈ mapKeys m ↔ ∃ cfg, c.GetBucketEncryption name =
              .ok { ServerSideEncryptionConfiguration := some cfg }) ∧
            ("PublicAccessBlock" ∈ mapKeys m ↔ ∃ cfg, c.GetPublicAccessBlock name =
              .ok { PublicAccessBlockConfiguration := some cfg }) ∧
            ("Tags" ∈ mapKeys m ↔ ∃ o, c.GetBucketTagging name = .ok o) := by
  refine ⟨?_, ?_⟩
  · intro hnames htags
    obtain ⟨ms, hres, -⟩ := ListS3BucketsWithMetadata_records c buckets hl hnames htags
    exact ⟨_, hres⟩
  · intro doc hdoc
    obtain ⟨-, ms, hr, hall⟩ := ListS3BucketsWithMetadata_inv c buckets hl _ _ hdoc
    obtain ⟨hlen, hidx⟩ := forall₂_index hall
    injection hr with hr
    refine ⟨ms, hr, hlen, ?_⟩
    intro i b hi
    obtain ⟨m, hm, hbm⟩ := hidx i b hi
    obtain ⟨name, hname, hwf⟩ := bucketMetadata_inv c b m hbm
    exact ⟨name, m, hname, hm, bucketMetadata_keys c b name hname hwf m hbm⟩

theorem field_group_present_iff_call_succeeded_witness :
    (∃ doc, ListS3BucketsWithMetadata (.ok s3Sample) = .ret (some doc) none) ∧
    ∃ ms : List (List (String × Json)),
      s3SampleDocument = Json.arr (ms.map Json.obj) ∧
      ms.length = 2 ∧
      ∀ (i : Nat) (b : Bucket), (rangeOf sampleBuckets)[i]? = some b →
        ∃ name m, b.Name = some name ∧ ms[i]? = some m ∧
          ("Region" ∈ mapKeys m ↔ ∃ o, s3Sample.GetBucketLocation name = .ok o) ∧
          ("Versioning" ∈ mapKeys m ↔ ∃ o, s3Sample.GetBucketVersioning name = .ok o) ∧
          ("Encryption" ∈ mapKeys m ↔ ∃ cfg, s3Sample.GetBucketEncryption name =
            .ok { ServerSideEncryptionConfiguration := some cfg }) ∧
          ("PublicAccessBlock" ∈ mapKeys m ↔ ∃ cfg, s3Sample.GetPublicAccessBlock name =
            .ok { PublicAccessBlockConfiguration := some cfg }) ∧
          ("Tags" ∈ mapKeys m ↔ ∃ o, s3Sample.GetBucketTagging name = .ok o) :=
  ⟨(field_group_present_iff_call_succeeded s3Sample sampleBuckets rfl).1
      sampleBuckets_names s3Sample_tags,
   (field_group_present_iff_call_succeeded s3Sample sampleBuckets rfl).2
      s3SampleDocument s3Sample_document⟩

/-- C5 (as stated, refuted): `s3NilConfig` and `s3KeylessTag` list `a` and `b` in that
order, their tagging call fails for `b` and every other call succeeds for both buckets. At
`s3NilConfig` the result has two records, and the record of `b` has neither an `Encryption`
nor a `PublicAccessBlock` key; at `s3KeylessTag`, where the tagging response of `a` holds a
tag without a key, the handler panics instead of returning a result. -/
theorem second_record_lacks_encryption_and_public_access_block :
    (s3NilConfig.GetBucketTagging "b" = .error "NoSuchTagSet" ∧
      s3NilConfig.GetBucketEncryption "b" =
        .ok { ServerSideEncryptionConfiguration := none } ∧
      s3NilConfig.GetPublicAccessBlock "b" = .ok { PublicAccessBlockConfiguration := none } ∧
      ListS3BucketsWithMetadata (.ok s3NilConfig) =
        .ret (some (Json.arr [Json.obj nilConfigRecordA, Json.obj nilConfigRecordB])) none ∧
      mapGet nilConfigRecordB "Name" = some (Json.str "b") ∧
      mapGet nilConfigRecordB "Encryption" = none ∧
      mapGet nilConfigRecordB "PublicAccessBlock" = none) ∧
    (s3KeylessTag.ListBuckets = .ok { Buckets := sampleBuckets } ∧
      s3KeylessTag.GetBucketTagging "b" = .error "NoSuchTagSet" ∧
      s3KeylessTag.GetBucketTagging "a" =
        .ok { TagSet := [{ Key := none, Value := some "v" }] } ∧
      ListS3BucketsWithMetadata (.ok s3KeylessTag) = .panic) :=
  ⟨⟨rfl, rfl, rfl, rfl, rfl, rfl, rfl⟩, ⟨rfl, rfl, rfl, rfl⟩⟩

/-- C5 (amended): with `ListBuckets` returning `a` and `b` in that order, the tagging call
failing for `b` and every other call succeeding for both buckets, the tags returned for `a`
each having a key and a value, the handler returns a result with exactly two records; the
record of `a` has the key `Tags`; the record of `b` has no `Tags` key, has `Region` and
`Versioning`, and has `Encryption` (`PublicAccessBlock`) exactly when the response of
`GetBucketEncryption` (`GetPublicAccessBlock`) for `b` holds a configuration that is not
nil. -/
theorem two_buckets_second_tagging_fails (c : S3Client) (da db : Json)
    (hl : c.ListBuckets = .ok { Buckets := some [
      { Name := some "a", CreationDate := da }, { Name := some "b", CreationDate := db }] })
    (ha : (∃ o, c.GetBucketLocation "a" = .ok o) ∧ (∃ o, c.GetBucketVersioning "a" = .ok o) ∧
      (∃ o, c.GetBucketEncryption "a" = .ok o) ∧ (∃ o, c.GetPublicAccessBlock "a" = .ok o) ∧
      ∃ o, c.GetBucketTagging "a" = .ok o ∧ ∀ t ∈ o.TagSet, t.Key ≠ none ∧ t.Value ≠ none)
    (hb : (∃ o, c.GetBucketLocation "b" = .ok o) ∧ (∃ o, c.GetBucketVersioning "b" = .ok o) ∧
      (∃ o, c.GetBucketEncryption "b" = .ok o) ∧ (∃ o, c.GetPublicAccessBlock "b" = .ok o) ∧
      ∃ e, c.GetBucketTagging "b" = .error e) :
    ∃ ra rb : List (String × Json),
      ListS3BucketsWithMetadata (.ok c) =
        .ret (some (Json.arr [Json.obj ra, Json.obj rb])) none ∧
      mapGet ra "Name" = some (Json.str "a") ∧ mapGet rb "Name" = some (Json.str "b") ∧
      "Tags" ∈ mapKeys ra ∧ "Tags" ∉ mapKeys rb ∧
      "Region" ∈ mapKeys rb ∧ "Versioning" ∈ mapKeys rb ∧
      ("Encryption" ∈ mapKeys rb ↔ ∃ cfg, c.GetBucketEncryption "b" =
        .ok { ServerSideEncryptionConfiguration := some cfg }) ∧
      ("PublicAccessBlock" ∈ mapKeys rb ↔ ∃ cfg, c.GetPublicAccessBlock "b" =
        .ok { PublicAccessBlockConfiguration := some cfg }) := by
  obtain ⟨-, -, -, -, oTa, hTa, hwfa⟩ := ha
  obtain ⟨hLb, hVb, -, -, eb, hTb⟩ := hb
  have htagsA : ∀ out, c.GetBucketTagging "a" = .ok out →
      ∀ t ∈ out.TagSet, t.Key ≠ none ∧ t.Value ≠ none := by
    intro out hout
    rw [hTa] at hout
    injection hout with h
    subst h
    exact hwfa
  have htagsB : ∀ out, c.GetBucketTagging "b" = .ok out →
      ∀ t ∈ out.TagSet, t.Key ≠ none ∧ t.Value ≠ none := by
    intro out hout
    rw [hTb] at hout
    cases hout
  obtain ⟨ra, hra, hNa, -⟩ :=
    bucketMetadata_spec c { Name := some "a", CreationDate := da } "a" rfl htagsA
  obtain ⟨rb, hrb, hNb, -⟩ :=
    bucketMetadata_spec c { Name := some "b", CreationDate := db } "b" rfl htagsB
  obtain ⟨-, -, -, -, hTagsA⟩ := bucketMetadata_keys c _ "a" rfl htagsA ra hra
  obtain ⟨hR, hV, hE, hP, hTagsB⟩ := bucketMetadata_keys c _ "b" rfl htagsB rb hrb
  refine ⟨ra, rb, ?_, hNa, hNb, hTagsA.mpr ⟨oTa, hTa⟩, ?_, hR.mpr hLb, hV.mpr hVb, hE, hP⟩
  · simp [ListS3BucketsWithMetadata, hl, rangeOf, describeBuckets, hra, hrb]
  · intro h
    obtain ⟨o, ho⟩ := hTagsB.mp h
    rw [hTb] at ho
    cases ho

theorem two_buckets_second_tagging_fails_witness :
    ∃ ra rb : List (String × Json),
      ListS3BucketsWithMetadata (.ok s3Sample) =
        .ret (some (Json.arr [Json.obj ra, Json.obj rb])) none ∧
      mapGet ra "Name" = some (Json.str "a") ∧ mapGet rb "Name" = some (Json.str "b") ∧
      "Tags" ∈ mapKeys ra ∧ "Tags" ∉ mapKeys rb ∧
      "Region" ∈ mapKeys rb ∧ "Versioning" ∈ mapKeys rb ∧
      ("Encryption" ∈ mapKeys rb ↔ ∃ cfg, s3Sample.GetBucketEncryption "b" =
        .ok { ServerSideEncryptionConfiguration := some cfg }) ∧
      ("PublicAccessBlock" ∈ mapKeys rb ↔ ∃ cfg, s3Sample.GetPublicAccessBlock "b" =
        .ok { PublicAccessBlockConfiguration := some cfg }) :=
  two_buckets_second_tagging_fails s3Sample
    (Json.str "2024-01-01T00:00:00Z") (Json.str "2024-02-01T00:00:00Z") rfl
    ⟨⟨_, rfl⟩, ⟨_, rfl⟩, ⟨_, rfl⟩, ⟨_, rfl⟩, ⟨_, rfl, by simp⟩⟩
    ⟨⟨_, rfl⟩, ⟨_, rfl⟩, ⟨_, rfl⟩, ⟨_, rfl⟩, ⟨_, rfl⟩⟩

/-! ## The tags -/

/-- C10: in a result that `ListS3BucketsWithMetadata` returns, the record of a listed bucket
for which `GetBucketTagging` succeeds (its tags then each have a key and a value) has under
`Tags` an object of string members with distinct keys, the keys being exactly the keys that
occur in the tag set and each key carrying the value of its last occurrence in the tag set;
with the empty tag set the object is present and empty, whereas after a failed call the
record has no `Tags` member. The handler returns a result when every listed bucket has a
name and the tags of every successful tagging response have a key and a value. -/
theorem Tags_member_of_record (c : S3Client) (buckets : Option (List Bucket))
    (hl : c.ListBuckets = .ok { Buckets := buckets }) :
    ((∀ b ∈ rangeOf buckets, b.Name ≠ none) →
      (∀ b ∈ rangeOf buckets, ∀ name out, b.Name = some name →
        c.GetBucketTagging name = .ok out →
        ∀ t ∈ out.TagSet, t.Key ≠ none ∧ t.Value ≠ none) →
      ∃ doc, ListS3BucketsWithMetadata (.ok c) = .ret (some doc) none) ∧
    ∀ doc, ListS3BucketsWithMetadata (.ok c) = .ret (some doc) none →
      ∃ ms : List (List (String × Json)),
        doc = Json.arr (ms.map Json.obj) ∧
        ∀ (i : Nat) (b : Bucket), (rangeOf buckets)[i]? = some b →
          ∃ name m, b.Name = some name ∧ ms[i]? = some m ∧
            (∀ out, c.GetBucketTagging name = .ok out →
              (∀ t ∈ out.TagSet, t.Key ≠ none ∧ t.Value ≠ none) ∧
              ∃ tags : List (String × String),
                mapGet m "Tags" =
                  some (Json.obj (tags.map fun kv => (kv.1, Json.str kv.2))) ∧
                (mapKeys tags).Nodup ∧
                (∀ k, k ∈ mapKeys tags ↔ ∃ t ∈ out.TagSet, t.Key = some k) ∧
                (∀ pre t post k v, out.TagSet = pre ++ t :: post →
                  t.Key = some k → t.Value = some v → (∀ u ∈ post, u.Key ≠ some k) →
                  mapGet tags k = some v) ∧
                (out.TagSet = [] → tags = [])) ∧
            (∀ e, c.GetBucketTagging name = .error e → mapGet m "Tags" = none) := by
  refine ⟨?_, ?_⟩
  · intro hnames htags
    obtain ⟨ms, hres, -⟩ := ListS3BucketsWithMetadata_records c buckets hl hnames htags
    exact ⟨_, hres⟩
  · intro doc hdoc
    obtain ⟨-, ms, hr, hall⟩ := ListS3BucketsWithMetadata_inv c buckets hl _ _ hdoc
    obtain ⟨-, hidx⟩ := forall₂_index hall
    injection hr with hr
    refine ⟨ms, hr, ?_⟩
    intro i b hi
    obtain ⟨m, hm, hbm⟩ := hidx i b hi
    obtain ⟨name, hname, hwf, -, -, hT⟩ := bucketMetadata_members c b m hbm
    refine ⟨name, m, hname, hm, ?_, ?_⟩
    · intro out hout
      obtain ⟨tags, htg, hnd, hkeys, hlast, -⟩ :=
        collectTags_spec out.TagSet (hwf out hout) [] (by simp [mapKeys])
      refine ⟨hwf out hout, tags, ?_, hnd, ?_, hlast, ?_⟩
      · rw [hT, hout]
        simp [htg, marshalStringMap]
      · intro k
        rw [hkeys k]
        simp [mapKeys]
      · intro hnil
        rw [hnil] at htg
        simpa [collectTags] using htg.symm
    · intro e he
      rw [hT, he]

theorem Tags_member_of_record_witness :
    (∃ doc, ListS3BucketsWithMetadata (.ok s3Sample) = .ret (some doc) none) ∧
    ∃ ms : List (List (String × Json)),
      s3SampleDocument = Json.arr (ms.map Json.obj) ∧
      ∀ (i : Nat) (b : Bucket), (rangeOf sampleBuckets)[i]? = some b →
        ∃ name m, b.Name = some name ∧ ms[i]? = some m ∧
          (∀ out, s3Sample.GetBucketTagging name = .ok out →
            (∀ t ∈ out.TagSet, t.Key ≠ none ∧ t.Value ≠ none) ∧
            ∃ tags : List (String × String),
              mapGet m "Tags" =
                some (Json.obj (tags.map fun kv => (kv.1, Json.str kv.2))) ∧
              (mapKeys tags).Nodup ∧
              (∀ k, k ∈ mapKeys tags ↔ ∃ t ∈ out.TagSet, t.Key = some k) ∧
              (∀ pre t post k v, out.TagSet = pre ++ t :: post →
                t.Key = some k → t.Value = some v → (∀ u ∈ post, u.Key ≠ some k) →
                mapGet tags k = some v) ∧
              (out.TagSet = [] → tags = [])) ∧
          (∀ e, s3Sample.GetBucketTagging name = .error e → mapGet m "Tags" = none) :=
  ⟨(Tags_member_of_record s3Sample sampleBuckets rfl).1 sampleBuckets_names s3Sample_tags,
   (Tags_member_of_record s3Sample sampleBuckets rfl).2 s3SampleDocument s3Sample_document⟩

/-! ## The table and key handlers at the sample clients -/

/-- The whole document `GetDynamoDbTableMetadata` gives at `dynamoSample`: the name listed
twice is one member. -/
theorem dynamoSample_document :
    GetDynamoDbTableMetadata (.ok dynamoSample) = .ret (some dynamoSampleDocument) none :=
  rfl

theorem GetDynamoDbTableMetadata_of_success_witness :
    ∃ m, GetDynamoDbTableMetadata (.ok dynamoSample) = .ret (some (Json.obj m)) none ∧
      (mapKeys m).Nodup ∧
      (∀ k, k ∈ mapKeys m ↔ k ∈ ["orders", "users", "orders"]) ∧
      (∀ t ∈ ["orders", "users", "orders"], ∀ td,
        dynamoSample.DescribeTable t = .ok { Table := some td } →
        mapGet m t = some (Json.obj [("CreatedDate", td.CreationDateTime),
                                     ("SizeBytes", td.TableSizeBytes),
                                     ("PricingModel", td.BillingModeSummary)])) :=
  GetDynamoDbTableMetadata_of_success dynamoSample (some ["orders", "users", "orders"]) rfl
    (fun _ _ => ⟨_, rfl⟩)

theorem ListKmsKeysWithMetadata_of_success_witness :
    ∃ recs, ListKmsKeysWithMetadata (.ok kmsSample) = .ret (some (Json.arr recs)) none ∧
      recs.length = 2 ∧
      ∀ (i : Nat) (k : KeyListEntry) id md arn,
        [({ KeyId := some "k1" } : KeyListEntry), { KeyId := some "k2" }][i]? = some k →
        k.KeyId = some id →
        kmsSample.DescribeKey id = .ok { KeyMetadata := some md } → md.Arn = some arn →
        recs[i]? = some (Json.obj [("KeyId", Json.str id),
                                   ("Arn", Json.str arn),
                                   ("CreationDate", md.CreationDate),
                                   ("Description", md.Description),
                                   ("Enabled", md.Enabled),
                                   ("KeyState", md.KeyState),
                                   ("KeyManager", md.KeyManager),
                                   ("KeyUsage", md.KeyUsage)]) :=
  ListKmsKeysWithMetadata_of_success kmsSample
    (some [{ KeyId := some "k1" }, { KeyId := some "k2" }]) rfl
    (by
      intro k hk
      simp only [rangeOf, List.mem_cons, List.mem_singleton, List.not_mem_nil, or_false] at hk
      rcases hk with rfl | rfl
      · exact ⟨"k1", sampleKeyMetadata, _, rfl, rfl, rfl⟩
      · exact ⟨"k2", sampleKeyMetadata, _, rfl, rfl, rfl⟩)

end Tools
